import Mathlib

/-!
Shallow embedding of the geometric reconciliation core of the daylight-analysis
program (sources: daylight_analysis_load_IFC_data.py and main.py).

Python floats are modelled as exact rationals; Python round(x, 3) is modelled as
round-half-to-even at 3 decimal places; a Python value that may be None is an
Option; a Python runtime error (ValueError from min of an empty sequence) is
modelled as the none / error case of the result type.
-/

namespace DaylightAnalysis

/-- Python round to nearest integer with ties to even, acting on the exact
rational value (round-half-even is CPython's rounding rule). -/
def roundHalfEven (x : ℚ) : ℤ :=
  let f := ⌊x⌋
  let r := x - (f : ℚ)
  if r < 1/2 then f
  else if 1/2 < r then f + 1
  else if f % 2 = 0 then f else f + 1

/-- Python round(x, 3). -/
def round3 (x : ℚ) : ℚ := ((roundHalfEven (x * 1000) : ℤ) : ℚ) / 1000

/-- Wall-orientation classification chain of windowParams
(daylight_analysis_load_IFC_data.py lines 180-192): an undefined RefDirection is
replaced by the zero vector; the four canonical vectors get a label; any other
vector leaves the label empty (the code has no else branch, so starting from the
initial empty wall_name nothing is assigned). -/
def classifyRefDirection (d : Option (ℚ × ℚ × ℚ)) : String :=
  let placement := d.getD (0, 0, 0)
  if placement = (0, 0, 0) then "front"
  else if placement = (0, -1, 0) then "right"
  else if placement = (0, 1, 0) then "left"
  else if placement = (-1, 0, 0) then "back"
  else ""

/-- One element returned by the spatial-index query t.select_box(window):
whether it is_a IfcWallStandardCase, its PSet length, and its placement
RefDirection (None modelled as none). -/
structure Elem where
  isWall : Bool
  length : ℚ
  refDir : Option (ℚ × ℚ × ℚ)
deriving DecidableEq

/-- Body of the for-wall loop of windowParams
(daylight_analysis_load_IFC_data.py lines 173-192), carrying the running
(wall_name, wall_length) state: a wall-type element overwrites wall_length and,
when its direction matches a canonical vector, wall_name; otherwise wall_name
keeps its previous value. Non-wall elements are skipped. -/
def wallStep (st : String × ℚ) (e : Elem) : String × ℚ :=
  if e.isWall then
    let wallLength := e.length
    let placement := e.refDir.getD (0, 0, 0)
    let wallName :=
      if placement = (0, 0, 0) then "front"
      else if placement = (0, -1, 0) then "right"
      else if placement = (0, 1, 0) then "left"
      else if placement = (-1, 0, 0) then "back"
      else st.1
    (wallName, wallLength)
  else st

/-- The wall search of windowParams: fold over the spatial-query results
starting from wall_name = "" and wall_length = 0. -/
def windowWall (elems : List Elem) : String × ℚ := elems.foldl wallStep ("", 0)

/-- Canonical classification of one element's direction, as an Option:
none when no canonical vector matched. -/
def oriHit (e : Elem) : Option String :=
  if classifyRefDirection e.refDir = "" then none else some (classifyRefDirection e.refDir)

/-- Last canonical classification of a list of wall candidates
(later elements take precedence). -/
def lastMatch : List Elem → Option String
  | [] => none
  | e :: rest => (lastMatch rest).orElse fun _ => oriHit e

/-- Wall candidate used by the C3 counterexample (direction (0,1,0), length 7). -/
def wallA : Elem := { isWall := true, length := 7, refDir := some (0, 1, 0) }

/-- Wall candidate used by the C3 counterexample: its direction (1,0,0) matches
no canonical vector. -/
def wallB : Elem := { isWall := true, length := 9, refDir := some (1, 0, 0) }

/-- Boolean prefix test on character lists (helper for the Python substring
operator). -/
def isPrefixChars : List Char → List Char → Bool
  | [], _ => true
  | _ :: _, [] => false
  | a :: as, b :: bs => a == b && isPrefixChars as bs

/-- The Python substring operator (sub in s) on character lists: true when
needle occurs contiguously in the haystack; the empty needle is contained in
every string, as in Python. -/
def containsChars (needle : List Char) : List Char → Bool
  | [] => isPrefixChars needle []
  | c :: rest => isPrefixChars needle (c :: rest) || containsChars needle rest

/-- Surface selection of Analysis.__addWindows (main.py lines 174-176): scan
the room's surfaces and keep the last surface whose printed form contains the
window's wall_name as a substring; none models the case where no surface ever
matched (the Python name hbsurface would then be unbound). Surfaces are
modelled by their printed names as character lists; the window's wall_name is
the needle. -/
def findSurface (wallName : List Char) (surfaces : List (List Char)) : Option (List Char) :=
  surfaces.foldl (fun acc srf => if containsChars wallName srf then some srf else acc) none

/-- Assembled window record (class Window of main.py).  Field order and
provenance follow Spaces.__init__ (main.py lines 295-306). -/
structure Window where
  name : String
  wx : ℚ
  wy : ℚ
  sillHeight : ℚ
  wall_name : String
  wall_length : ℚ
  loc_x : ℚ
  loc_y : ℚ
deriving DecidableEq

/-- Placement correction of Analysis.__addWindows (main.py lines 182-183):
when the raw x location exceeds both the room width sx and the room depth sy,
loc_x is recomputed as wall_length - loc_x - wx; nothing else changes. -/
def correctLoc (sx sy : ℚ) (w : Window) : Window :=
  if w.loc_x > sx ∧ w.loc_x > sy then
    { w with loc_x := w.wall_length - w.loc_x - w.wx }
  else w

/-- Concrete window of the C2 round-trip scenario: raw location (5, 1.2 - here
an integral 2 to keep kernel arithmetic simple), wall length 4, opening
extent 1. -/
def wC2 : Window :=
  { name := "W1", wx := 1, wy := 1, sillHeight := 1, wall_name := "left",
    wall_length := 4, loc_x := 5, loc_y := 2 }

/-- One window entry of the analysis-format output of windowParams
(daylight_analysis_load_IFC_data.py lines 200-211), i.e. the 8-element list
[Tag, round(Height,3), round(Width,3), sill (rounded or None), wall_name,
wall_length, loc_x, loc_y] in that order. -/
structure WindowRec where
  tag : String
  height3 : ℚ
  width3 : ℚ
  sill3 : Option ℚ
  wallName : String
  wallLength : ℚ
  locX : ℚ
  locY : ℚ
deriving DecidableEq

/-- One analysis-format entry of windowOut (main.py lines 47-58): the space
long name, the space code, then the window entries of that space. -/
structure WindowGroup where
  longName : String
  code : String
  wins : List WindowRec
deriving DecidableEq

/-- One analysis-format entry of spaceOut, as mutated by Spaces.__init__: the
original five values [LongName, Name, v2, v3, v4] are the longName, code and
vals fields; ext records the window-group tails appended in place by
spaceParam.append(windowParam[2:]) (main.py line 291), initially []. -/
structure SpaceParam where
  longName : String
  code : String
  vals : List ℚ
  ext : List (List WindowRec)
deriving DecidableEq

/-- Assembled space record (class Space of main.py). -/
structure Space where
  longName : String
  name : String
  windows : List Window
  sx : ℚ
  sy : ℚ
  sz : ℚ
deriving DecidableEq

/-- Window construction of Spaces.__init__ (main.py lines 295-318): position 1
of the source entry (the rounded IFC height) becomes wx and position 2 (the
rounded IFC width) becomes wy, exactly as the code maps windowParam[i][1] and
windowParam[i][2]; a missing sill height becomes 0.1. -/
def mkWindow (wr : WindowRec) : Window :=
  { name := wr.tag
    wx := wr.height3
    wy := wr.width3
    sillHeight := match wr.sill3 with | none => 1/10 | some v => v
    wall_name := wr.wallName
    wall_length := wr.wallLength
    loc_x := wr.locX
    loc_y := wr.locY }

/-- Body of the for-windowParam loop of Spaces.__init__ (main.py lines
288-320): when the group's code (windowParam[1]) equals the space record's code
(spaceParam[1]), the group's window list is appended in place to the space
record and each of its windows is converted and collected; otherwise nothing
happens. -/
def procStep (acc : SpaceParam × List Window) (g : WindowGroup) : SpaceParam × List Window :=
  if g.code = acc.1.code then
    ({ acc.1 with ext := acc.1.ext ++ [g.wins] }, acc.2 ++ g.wins.map mkWindow)
  else acc

/-- Per-space body of Spaces.__init__ (main.py lines 280-322): read the five
space parameters, run the window loop, return the (mutated) space record and
the assembled Space. -/
def procSpace (windowOut : List WindowGroup) (p : SpaceParam) : SpaceParam × Space :=
  let longName := p.longName
  let spaceId := p.code
  let sx := p.vals.getD 0 0
  let sy := p.vals.getD 1 0
  let sz := p.vals.getD 2 0
  let r := windowOut.foldl procStep (p, [])
  (r.1, { longName := longName, name := spaceId, windows := r.2,
          sx := sx, sy := sy, sz := sz })

/-- Spaces.__init__ (main.py lines 278-322) with the mutation made explicit:
returns the space records after assembly, the window records after assembly
(the code never touches them, so they pass through), and the assembled
Space list. -/
def spacesInit (spaceOut : List SpaceParam) (windowOut : List WindowGroup) :
    List SpaceParam × List WindowGroup × List Space :=
  let l := spaceOut.map (procSpace windowOut)
  (l.map Prod.fst, windowOut, l.map Prod.snd)

/-- Window entry W1 of the assembly scenario (room code A203). -/
def recW1 : WindowRec :=
  { tag := "W1", height3 := 1, width3 := 1, sill3 := some 1, wallName := "left",
    wallLength := 4, locX := 1, locY := 1 }

/-- Window entry W2 of the assembly scenario (room code B101). -/
def recW2 : WindowRec :=
  { tag := "W2", height3 := 1, width3 := 1, sill3 := some 1, wallName := "back",
    wallLength := 4, locX := 1, locY := 1 }

/-- Window group of space A203 holding W1. -/
def groupA : WindowGroup := { longName := "Bedroom", code := "A203", wins := [recW1] }

/-- Window group of space B101 holding W2. -/
def groupB : WindowGroup := { longName := "Other", code := "B101", wins := [recW2] }

/-- Space record of the assembly scenario (code A203, width 3, depth 4,
height 3). -/
def roomA : SpaceParam := { longName := "Bedroom", code := "A203", vals := [3, 4, 3], ext := [] }

/-- Window entry with a missing sill height, used by the C7 witness. -/
def wrNoSill : WindowRec :=
  { tag := "W3", height3 := 1, width3 := 1, sill3 := none, wallName := "front",
    wallLength := 5, locX := 1, locY := 1 }

/-- A room plan profile: either an IfcRectangleProfileDef with its two
dimensions, or an IfcArbitraryClosedProfileDef with its outer-curve points. -/
inductive Profile where
  | rect (xDim yDim : ℚ)
  | arbitrary (pts : List (ℚ × ℚ))
deriving DecidableEq

/-- An IfcSpace as read by spaceDims: long name, code, plan profile, and the
PSet unbounded height. -/
structure IfcSpace where
  longName : String
  name : String
  profile : Profile
  height : ℚ
deriving DecidableEq

/-- arbiClosOut (daylight_analysis_load_IFC_data.py lines 317-341): bounding
box of the profile points, each dimension rounded to 3 decimals, tagged with
the output column numbers 2 and 3.  On an empty point list the Python min of
an empty sequence raises ValueError, modelled as none. -/
def arbiClosOut : List (ℚ × ℚ) → Option ((ℕ × ℚ) × (ℕ × ℚ))
  | [] => none
  | p :: rest =>
    let botLeftX := (rest.map Prod.fst).foldl min p.1
    let botLeftY := (rest.map Prod.snd).foldl min p.2
    let topRightX := (rest.map Prod.fst).foldl max p.1
    let topRightY := (rest.map Prod.snd).foldl max p.2
    some ((2, round3 (topRightX - botLeftX)), (3, round3 (topRightY - botLeftY)))

/-- spaceDims (daylight_analysis_load_IFC_data.py lines 344-383): Hallway and
Roof spaces are skipped (ok none); a rectangle profile contributes
[3, round(YDim,3)] BEFORE [2, round(XDim,3)] (the code builds a = the column-2
row and b = the column-3 row and appends b first); an arbitrary profile
contributes the two arbiClosOut rows in order; the rounded height follows as
the column-4 row.  The error case propagates arbiClosOut's ValueError. -/
def spaceDims (s : IfcSpace) : Except Unit (Option (String × String × List (ℕ × ℚ))) :=
  if s.longName ≠ "Hallway" ∧ s.longName ≠ "Roof" then
    match s.profile with
    | Profile.rect xDim yDim =>
      let a := ((2 : ℕ), round3 xDim)
      let b := ((3 : ℕ), round3 yDim)
      Except.ok (some (s.longName, s.name, [b, a, ((4 : ℕ), round3 s.height)]))
    | Profile.arbitrary pts =>
      match arbiClosOut pts with
      | none => Except.error ()
      | some (a, b) => Except.ok (some (s.longName, s.name, [a, b, ((4 : ℕ), round3 s.height)]))
  else Except.ok none

/-- SpaceParams with excelFormat=False (daylight_analysis_load_IFC_data.py
lines 38-57): keep, of every row, only the element at index 1 - i.e. drop the
column numbers - preserving order, giving the flat analysis record consumed by
Spaces.__init__. -/
def stripParams (rec : String × String × List (ℕ × ℚ)) : SpaceParam :=
  { longName := rec.1, code := rec.2.1, vals := rec.2.2.map Prod.snd, ext := [] }

/-- End-to-end per-room chain: spaceDims, then the analysis strip, then
Spaces.__init__ for that record. -/
def assembledRoom (windowOut : List WindowGroup) (s : IfcSpace) : Except Unit (Option Space) :=
  match spaceDims s with
  | Except.error e => Except.error e
  | Except.ok none => Except.ok none
  | Except.ok (some rec) => Except.ok (some ((procSpace windowOut (stripParams rec)).2))

/-- Rectangular space of the C1 scenario: XDim 3, YDim 4, height 3. -/
def rectRoom : IfcSpace :=
  { longName := "Bedroom", name := "A203", profile := Profile.rect 3 4, height := 3 }

/-- Minimum of a rational list computed the way the Python code does
(min over the whole sequence); none on the empty list (ValueError). -/
def minOf : List ℚ → Option ℚ
  | [] => none
  | x :: xs => some (xs.foldl min x)

/-- Maximum of a rational list, same shape as minOf. -/
def maxOf : List ℚ → Option ℚ
  | [] => none
  | x :: xs => some (xs.foldl max x)

theorem getD_orElse {α : Type} (a : Option α) (b : Unit → Option α) (d : α) :
    (a.orElse b).getD d = a.getD ((b ()).getD d) := by
  cases a <;> rfl

theorem getD_oriHit (e : Elem) (n : String) :
    (oriHit e).getD n =
      if classifyRefDirection e.refDir = "" then n else classifyRefDirection e.refDir := by
  unfold oriHit
  by_cases h : classifyRefDirection e.refDir = ""
  · rw [if_pos h, if_pos h]; rfl
  · rw [if_neg h, if_neg h]; rfl

theorem wallStep_eq (st : String × ℚ) (e : Elem) (h : e.isWall = true) :
    wallStep st e = ((oriHit e).getD st.1, e.length) := by
  simp only [wallStep, oriHit, classifyRefDirection, h, if_true]
  split_ifs <;> simp_all

theorem getLastOfCons {α : Type} (d : α) (ds : List α) :
    (d :: ds).getLast? = some ((d :: ds).getLast (by simp)) :=
  (List.getLast?_eq_getLast _ _).symm

theorem foldl_wallStep (elems : List Elem) : ∀ st : String × ℚ,
    elems.foldl wallStep st =
      ((lastMatch (elems.filter fun e => e.isWall)).getD st.1,
       (((elems.filter fun e => e.isWall).getLast?).map Elem.length).getD st.2) := by
  induction elems with
  | nil => intro st; rfl
  | cons e rest ih =>
    intro st
    rw [List.foldl_cons]
    by_cases h : e.isWall = true
    · rw [wallStep_eq st e h, ih]
      rw [List.filter_cons_of_pos h]
      have hfst : (lastMatch (e :: rest.filter fun e => e.isWall)).getD st.1 =
          (lastMatch (rest.filter fun e => e.isWall)).getD ((oriHit e).getD st.1) := by
        show ((lastMatch (rest.filter fun e => e.isWall)).orElse fun _ => oriHit e).getD st.1 = _
        rw [getD_orElse]
      rw [hfst]
      cases hr : rest.filter fun e => e.isWall with
      | nil => rfl
      | cons f fs =>
        rw [List.getLast?_cons_cons, getLastOfCons f fs]
        rfl
    · have hstep : wallStep st e = st := by
        unfold wallStep
        rw [if_neg h]
      rw [hstep, List.filter_cons_of_neg h, ih]

theorem containsChars_nil (s : List Char) : containsChars [] s = true := by
  cases s <;> simp [containsChars, isPrefixChars]

theorem findSurface_empty_needle (surfaces : List (List Char)) :
    ∀ acc : Option (List Char),
      surfaces.foldl (fun acc srf => if containsChars [] srf then some srf else acc) acc =
        (surfaces.getLast?).elim acc some := by
  induction surfaces with
  | nil => intro acc; rfl
  | cons c rest ih =>
    intro acc
    rw [List.foldl_cons, if_pos (by simp [containsChars_nil]), ih]
    cases rest with
    | nil => rfl
    | cons d ds =>
      rw [List.getLast?_cons_cons, getLastOfCons d ds]
      rfl

theorem foldl_procStep (wog : List WindowGroup) : ∀ (p : SpaceParam) (ws : List Window),
    wog.foldl procStep (p, ws) =
      ({ p with ext := p.ext ++ (wog.filter fun g => g.code == p.code).map WindowGroup.wins },
       ws ++ (wog.filter fun g => g.code == p.code).flatMap fun g => g.wins.map mkWindow) := by
  induction wog with
  | nil => intro p ws; simp
  | cons g rest ih =>
    intro p ws
    rw [List.foldl_cons]
    by_cases h : g.code = p.code
    · have hstep : procStep (p, ws) g =
          ({ p with ext := p.ext ++ [g.wins] }, ws ++ g.wins.map mkWindow) := by
        simp [procStep, h]
      rw [hstep, ih]
      simp [List.filter_cons, h, List.append_assoc]
    · have hstep : procStep (p, ws) g = (p, ws) := by
        simp [procStep, h]
      rw [hstep, ih]
      simp [List.filter_cons, h]

theorem procSpace_fst (windowOut : List WindowGroup) (p : SpaceParam) :
    (procSpace windowOut p).1 =
      { p with ext := p.ext ++ (windowOut.filter fun g => g.code == p.code).map WindowGroup.wins } := by
  simp [procSpace, foldl_procStep]

theorem procSpace_windows (windowOut : List WindowGroup) (p : SpaceParam) :
    ((procSpace windowOut p).2).windows =
      (windowOut.filter fun g => g.code == p.code).flatMap fun g => g.wins.map mkWindow := by
  simp [procSpace, foldl_procStep]

theorem round3_zero : round3 0 = 0 := by
  norm_num [round3, roundHalfEven]

theorem foldl_min_mem (xs : List ℚ) : ∀ x : ℚ, xs.foldl min x ∈ x :: xs := by
  induction xs with
  | nil => intro x; simp
  | cons y ys ih =>
    intro x
    rw [List.foldl_cons]
    rcases List.mem_cons.mp (ih (min x y)) with h1 | h1
    · rcases min_choice x y with hc | hc
      · rw [h1, hc]; exact List.mem_cons_self _ _
      · rw [h1, hc]; exact List.mem_cons_of_mem _ (List.mem_cons_self _ _)
    · exact List.mem_cons_of_mem _ (List.mem_cons_of_mem _ h1)

theorem foldl_min_le (xs : List ℚ) : ∀ x a : ℚ, a ∈ x :: xs → xs.foldl min x ≤ a := by
  induction xs with
  | nil =>
    intro x a h
    simp only [List.mem_singleton] at h
    simp [h]
  | cons y ys ih =>
    intro x a h
    rw [List.foldl_cons]
    rcases List.mem_cons.mp h with h1 | h1
    · calc ys.foldl min (min x y) ≤ min x y := ih _ _ (List.mem_cons_self _ _)
        _ ≤ x := min_le_left _ _
        _ = a := h1.symm
    · rcases List.mem_cons.mp h1 with h2 | h2
      · calc ys.foldl min (min x y) ≤ min x y := ih _ _ (List.mem_cons_self _ _)
          _ ≤ y := min_le_right _ _
          _ = a := h2.symm
      · exact ih _ _ (List.mem_cons_of_mem _ h2)

theorem foldl_max_mem (xs : List ℚ) : ∀ x : ℚ, xs.foldl max x ∈ x :: xs := by
  induction xs with
  | nil => intro x; simp
  | cons y ys ih =>
    intro x
    rw [List.foldl_cons]
    rcases List.mem_cons.mp (ih (max x y)) with h1 | h1
    · rcases max_choice x y with hc | hc
      · rw [h1, hc]; exact List.mem_cons_self _ _
      · rw [h1, hc]; exact List.mem_cons_of_mem _ (List.mem_cons_self _ _)
    · exact List.mem_cons_of_mem _ (List.mem_cons_of_mem _ h1)

theorem foldl_max_ge (xs : List ℚ) : ∀ x a : ℚ, a ∈ x :: xs → a ≤ xs.foldl max x := by
  induction xs with
  | nil =>
    intro x a h
    simp only [List.mem_singleton] at h
    simp [h]
  | cons y ys ih =>
    intro x a h
    rw [List.foldl_cons]
    rcases List.mem_cons.mp h with h1 | h1
    · calc a = x := h1
        _ ≤ max x y := le_max_left _ _
        _ ≤ ys.foldl max (max x y) := ih _ _ (List.mem_cons_self _ _)
    · rcases List.mem_cons.mp h1 with h2 | h2
      · calc a = y := h2
          _ ≤ max x y := le_max_right _ _
          _ ≤ ys.foldl max (max x y) := ih _ _ (List.mem_cons_self _ _)
      · exact ih _ _ (List.mem_cons_of_mem _ h2)

theorem minOf_perm {l1 l2 : List ℚ} (h : l1.Perm l2) : minOf l1 = minOf l2 := by
  cases l1 with
  | nil =>
    have : l2 = [] := h.symm.eq_nil
    rw [this]
  | cons x xs =>
    cases l2 with
    | nil => exact absurd h.eq_nil (by simp)
    | cons y ys =>
      show some (xs.foldl min x) = some (ys.foldl min y)
      congr 1
      have hm1 : xs.foldl min x ∈ y :: ys := h.mem_iff.mp (foldl_min_mem xs x)
      have hm2 : ys.foldl min y ∈ x :: xs := h.mem_iff.mpr (foldl_min_mem ys y)
      exact le_antisymm (foldl_min_le xs x _ hm2) (foldl_min_le ys y _ hm1)

theorem maxOf_perm {l1 l2 : List ℚ} (h : l1.Perm l2) : maxOf l1 = maxOf l2 := by
  cases l1 with
  | nil =>
    have : l2 = [] := h.symm.eq_nil
    rw [this]
  | cons x xs =>
    cases l2 with
    | nil => exact absurd h.eq_nil (by simp)
    | cons y ys =>
      show some (xs.foldl max x) = some (ys.foldl max y)
      congr 1
      have hm1 : xs.foldl max x ∈ y :: ys := h.mem_iff.mp (foldl_max_mem xs x)
      have hm2 : ys.foldl max y ∈ x :: xs := h.mem_iff.mpr (foldl_max_mem ys y)
      exact le_antisymm (foldl_max_ge ys y _ hm1) (foldl_max_ge xs x _ hm2)

/-- Claim C1 is refuted at the rectangle profile XDim 3, YDim 4: the assembled
room record has width field sx = 4 = round3 YDim and depth field sy = 3 =
round3 XDim, while the claim asserts sx = XDim = 3; and 4 is not 3. -/
theorem c1_counterexample :
    assembledRoom [] rectRoom =
      Except.ok (some { longName := "Bedroom", name := "A203", windows := [],
                        sx := 4, sy := 3, sz := 3 }) ∧ (4 : ℚ) ≠ 3 := by
  have e4 : round3 4 = 4 := by norm_num [round3, roundHalfEven]
  have e3 : round3 3 = 3 := by norm_num [round3, roundHalfEven]
  constructor
  · simp [assembledRoom, spaceDims, rectRoom, stripParams, procSpace, e3, e4]
  · norm_num

/-- Claim C1 (amended): for every analyzable space with a rectangular profile
the resolver keeps the profile's own dimensions, rounded to 3 decimals, but
swapped relative to the claim: the assembled room's width field sx equals
round3 YDim and its depth field sy equals round3 XDim, because spaceDims
appends the column-3 (YDim) row before the column-2 (XDim) row and the
analysis strip preserves list order. -/
theorem c1_rect_dimensions (windowOut : List WindowGroup) (s : IfcSpace) (xDim yDim : ℚ)
    (h1 : s.longName ≠ "Hallway") (h2 : s.longName ≠ "Roof")
    (hp : s.profile = Profile.rect xDim yDim) :
    ∃ sp : Space, assembledRoom windowOut s = Except.ok (some sp) ∧
      sp.sx = round3 yDim ∧ sp.sy = round3 xDim := by
  have hs : spaceDims s = Except.ok (some (s.longName, s.name,
      [((3 : ℕ), round3 yDim), ((2 : ℕ), round3 xDim), ((4 : ℕ), round3 s.height)])) := by
    unfold spaceDims
    rw [if_pos ⟨h1, h2⟩, hp]
  refine ⟨(procSpace windowOut (stripParams (s.longName, s.name,
      [((3 : ℕ), round3 yDim), ((2 : ℕ), round3 xDim), ((4 : ℕ), round3 s.height)]))).2,
      ?_, ?_, ?_⟩
  · unfold assembledRoom
    rw [hs]
  · simp [procSpace, stripParams]
  · simp [procSpace, stripParams]

/-- Claim C1 witness: the amended theorem applied to the concrete rectangular
room with XDim 3 and YDim 4. -/
theorem c1_witness :
    ∃ sp : Space, assembledRoom [] rectRoom = Except.ok (some sp) ∧
      sp.sx = round3 4 ∧ sp.sy = round3 3 :=
  c1_rect_dimensions [] rectRoom 3 4 (by decide) (by decide) rfl

/-- Claim C2: the placement correction fires exactly when the raw x location
exceeds both the room width and the room depth, in which case loc_x becomes
wall_length - loc_x - wx while loc_y (and everything else) is unchanged;
otherwise the window passes through untouched.  At the round-trip scenario
(room 3 by 4, raw x 5, wall length 4, opening extent 1) the corrected loc_x
is 4 - 5 - 1 = -2. -/
theorem c2_placement_correction (sx sy : ℚ) (w : Window) :
    ((w.loc_x > sx ∧ w.loc_x > sy) →
      correctLoc sx sy w = { w with loc_x := w.wall_length - w.loc_x - w.wx }) ∧
    (¬(w.loc_x > sx ∧ w.loc_x > sy) → correctLoc sx sy w = w) ∧
    (correctLoc 3 4 wC2).loc_x = -2 := by
  refine ⟨?_, ?_, ?_⟩
  · intro h
    unfold correctLoc
    rw [if_pos h]
  · intro h
    unfold correctLoc
    rw [if_neg h]
  · norm_num [correctLoc, wC2]

/-- Claim C2 witness: the correction hypothesis holds at the concrete scenario
window and the theorem yields the corrected record. -/
theorem c2_witness :
    correctLoc 3 4 wC2 = { wC2 with loc_x := wC2.wall_length - wC2.loc_x - wC2.wx } :=
  (c2_placement_correction 3 4 wC2).1 (by constructor <;> norm_num [wC2])

/-- Claim C3 is refuted with two wall candidates: the selected (last) wall
candidate wallB determines the reported length 9, but its direction (1,0,0)
classifies to no canonical label, so the reported orientation "left" is the
one read from the EARLIER candidate wallA, not from the selected wall. -/
theorem c3_counterexample :
    windowWall [wallA, wallB] = ("left", 9) ∧
    classifyRefDirection wallB.refDir = "" ∧ ("left" : String) ≠ "" := by
  refine ⟨by decide, by decide, by decide⟩

/-- Claim C3 (amended): the reported wall length is that of the last wall-type
candidate (0 when there is none, the "no wall found" outcome together with the
empty orientation), while the reported orientation is the LAST canonical
classification over all wall-type candidates - which may stem from an earlier
candidate whenever later candidates' directions match no canonical vector. -/
theorem c3_wall_selection (elems : List Elem) :
    windowWall elems =
      ((lastMatch (elems.filter fun e => e.isWall)).getD "",
       (((elems.filter fun e => e.isWall).getLast?).map Elem.length).getD 0) :=
  foldl_wallStep elems ("", 0)

/-- Claim C4: the classifier is a total function of the optional reference
direction; an absent direction is treated as the zero vector; the four
canonical vectors map to the labels front, right, left, back, and any other
vector yields the empty label, the code's representation of Unknown. -/
theorem c4_orientation_table :
    classifyRefDirection none = "front" ∧
    classifyRefDirection (some (0, 0, 0)) = "front" ∧
    classifyRefDirection (some (0, -1, 0)) = "right" ∧
    classifyRefDirection (some (0, 1, 0)) = "left" ∧
    classifyRefDirection (some (-1, 0, 0)) = "back" ∧
    ∀ v : ℚ × ℚ × ℚ, v ≠ (0, 0, 0) → v ≠ (0, -1, 0) → v ≠ (0, 1, 0) → v ≠ (-1, 0, 0) →
      classifyRefDirection (some v) = "" := by
  refine ⟨by decide, by decide, by decide, by decide, by decide, ?_⟩
  intro v h1 h2 h3 h4
  simp only [classifyRefDirection, Option.getD_some]
  rw [if_neg h1, if_neg h2, if_neg h3, if_neg h4]

/-- Claim C4 witness: a non-canonical vector classifies to the empty
(Unknown) label. -/
theorem c4_witness : classifyRefDirection (some (2, 3, 4)) = "" :=
  c4_orientation_table.2.2.2.2.2 (2, 3, 4) (by decide) (by decide) (by decide) (by decide)

/-- Claim C5 is refuted: with the empty wall name (the Unknown-orientation
case) the surface scan matches EVERY surface, because the empty string is a
Python substring of every string, so the window is attached to the last
surface instead of being excluded. -/
theorem c5_counterexample :
    findSurface [] [['f','r','o','n','t'], ['r','i','g','h','t'],
        ['b','a','c','k'], ['l','e','f','t']] = some ['l','e','f','t'] ∧
    findSurface [] [['f','r','o','n','t'], ['r','i','g','h','t'],
        ['b','a','c','k'], ['l','e','f','t']] ≠ none := by
  refine ⟨by decide, by decide⟩

/-- Claim C5 (amended): a window whose wall orientation is Unknown (empty wall
name) is attached to the LAST surface of the room's surface list whenever the
room has any surface at all - it is not excluded from placement. -/
theorem c5_unknown_attaches_last (surfaces : List (List Char)) :
    findSurface [] surfaces = surfaces.getLast? := by
  unfold findSurface
  rw [findSurface_empty_needle surfaces none]
  cases surfaces.getLast? <;> rfl

/-- Claim C6: a window ends up in an assembled room exactly when its window
group's room code equals the room record's code; and in the concrete scenario
the room A203 receives exactly window W1 while W2 (room code B101) is
dropped. -/
theorem c6_window_matching :
    (∀ (wog : List WindowGroup) (p : SpaceParam) (w : Window),
      w ∈ ((procSpace wog p).2).windows ↔
        ∃ g, g ∈ wog ∧ g.code = p.code ∧ ∃ wr, wr ∈ g.wins ∧ mkWindow wr = w) ∧
    ((procSpace [groupA, groupB] roomA).2).windows = [mkWindow recW1] := by
  constructor
  · intro wog p w
    rw [procSpace_windows]
    simp only [List.mem_flatMap, List.mem_filter, List.mem_map, beq_iff_eq]
    constructor
    · rintro ⟨g, ⟨hg, hc⟩, wr, hwr, hmk⟩
      exact ⟨g, hg, hc, wr, hwr, hmk⟩
    · rintro ⟨g, hg, hc, wr, hwr, hmk⟩
      exact ⟨g, ⟨hg, hc⟩, wr, hwr, hmk⟩
  · decide

/-- Claim C7: the assembled sill height substitutes the default 0.1 exactly
when the source record's sill value is missing, and keeps the source value
otherwise; the substitution is total (no error case). -/
theorem c7_sill_default (wr : WindowRec) :
    (wr.sill3 = none → (mkWindow wr).sillHeight = 1/10) ∧
    (∀ v : ℚ, wr.sill3 = some v → (mkWindow wr).sillHeight = v) := by
  constructor
  · intro h
    simp [mkWindow, h]
  · intro v h
    simp [mkWindow, h]

/-- Claim C7 witness: the default fires on a record with a missing sill. -/
theorem c7_witness : (mkWindow wrNoSill).sillHeight = 1/10 :=
  (c7_sill_default wrNoSill).1 rfl

/-- Claim C8 is refuted at the zero-vertex profile: the bounds computation
does not return width = depth = 0 there - the Python min of an empty sequence
raises ValueError, modelled as none. -/
theorem c8_counterexample :
    arbiClosOut [] = none ∧ arbiClosOut [] ≠ some ((2, 0), (3, 0)) := by
  exact ⟨rfl, by simp [arbiClosOut]⟩

/-- Claim C8 (amended): a one-vertex polygon yields bounding-box width =
depth = 0 without failing, but a zero-vertex polygon is an error (ValueError
from min of an empty sequence), not a (0, 0) result. -/
theorem c8_degenerate (p : ℚ × ℚ) :
    arbiClosOut [p] = some ((2, 0), (3, 0)) ∧ arbiClosOut [] = none := by
  constructor
  · simp [arbiClosOut, sub_self, round3_zero]
  · rfl

/-- Claim C9 is refuted at one room record and one matching window group: the
room record returned after assembly has been extended in place (its ext
component now holds the group's window list), so the input room-record
sequence is NOT left unchanged. -/
theorem c9_counterexample :
    (spacesInit [roomA] [groupA]).1 ≠ [roomA] := by decide

/-- Claim C9 (amended): assembly leaves the window-record sequence unchanged,
but mutates the room records: each room record is extended in place by the
window lists of every matching window group (its longName, code and vals
fields stay intact); records with no matching group are unchanged. -/
theorem c9_assembly_frame (spaceOut : List SpaceParam) (windowOut : List WindowGroup) :
    (spacesInit spaceOut windowOut).2.1 = windowOut ∧
    (spacesInit spaceOut windowOut).1 =
      spaceOut.map fun p =>
        { p with ext := p.ext ++ (windowOut.filter fun g => g.code == p.code).map WindowGroup.wins } := by
  refine ⟨rfl, ?_⟩
  simp only [spacesInit, List.map_map, Function.comp_def, procSpace_fst]

/-- Claim C10: the bounding-box computation of arbiClosOut is invariant under
any permutation of the input point order (min/max reductions depend only on
the multiset of coordinates). -/
theorem c10_bounding_box_perm (pts1 pts2 : List (ℚ × ℚ)) (h : pts1.Perm pts2) :
    arbiClosOut pts1 = arbiClosOut pts2 := by
  cases pts1 with
  | nil =>
    rw [h.symm.eq_nil]
  | cons p rest =>
    cases pts2 with
    | nil => exact absurd h.eq_nil (by simp)
    | cons q rest2 =>
      have hx : ((p :: rest).map Prod.fst).Perm ((q :: rest2).map Prod.fst) := h.map Prod.fst
      have hy : ((p :: rest).map Prod.snd).Perm ((q :: rest2).map Prod.snd) := h.map Prod.snd
      have hminx := minOf_perm hx
      have hminy := minOf_perm hy
      have hmaxx := maxOf_perm hx
      have hmaxy := maxOf_perm hy
      simp only [List.map_cons, minOf, maxOf, Option.some.injEq] at hminx hminy hmaxx hmaxy
      simp only [arbiClosOut]
      rw [hminx, hminy, hmaxx, hmaxy]

/-- Claim C10 witness: permutation invariance at a concrete two-point swap. -/
theorem c10_witness :
    arbiClosOut [((0 : ℚ), (0 : ℚ)), (1, 2)] = arbiClosOut [((1 : ℚ), (2 : ℚ)), (0, 0)] :=
  c10_bounding_box_perm _ _ (List.Perm.swap _ _ _)

end DaylightAnalysis

